import Mathlib

/-!
Shallow embedding of `src/main.py`, a FastAPI proxy for the Spotify Web API.

JSON values are modelled by the inductive `Json`; Python `dict.get` with a
default, Python truthiness, Python iteration and Python exceptions are
modelled explicitly.  Handlers become pure functions from the inbound
request data and the (explicitly passed) upstream HTTP response to the
final HTTP response, with `try`/`except` blocks modelled by matching on an
`Except` value.
-/

/-- JSON values as handled by the Python code (numbers restricted to the
integers actually relevant here). Objects are insertion-ordered key/value
lists, matching Python 3.7+ `dict` semantics. -/
inductive Json where
  | null : Json
  | bool : Bool → Json
  | num : Int → Json
  | str : String → Json
  | arr : List Json → Json
  | obj : List (String × Json) → Json

mutual

/-- Structural equality test on JSON values. -/
def Json.beq : Json → Json → Bool
  | .null, .null => true
  | .bool a, .bool b => a == b
  | .num a, .num b => a == b
  | .str a, .str b => a == b
  | .arr xs, .arr ys => Json.beqArr xs ys
  | .obj xs, .obj ys => Json.beqObj xs ys
  | _, _ => false

/-- Equality test on JSON arrays. -/
def Json.beqArr : List Json → List Json → Bool
  | [], [] => true
  | x :: xs, y :: ys => Json.beq x y && Json.beqArr xs ys
  | _, _ => false

/-- Equality test on JSON object field lists. -/
def Json.beqObj : List (String × Json) → List (String × Json) → Bool
  | [], [] => true
  | (k, x) :: xs, (k', y) :: ys => k == k' && (Json.beq x y && Json.beqObj xs ys)
  | _, _ => false

end

mutual

theorem Json.eq_of_beq : ∀ (a b : Json), Json.beq a b = true → a = b
  | .arr xs, .arr ys, h =>
      congrArg Json.arr (Json.eqArr_of_beqArr xs ys (by simpa [Json.beq] using h))
  | .obj xs, .obj ys, h =>
      congrArg Json.obj (Json.eqObj_of_beqObj xs ys (by simpa [Json.beq] using h))
  | .arr _, .null, h => by simp [Json.beq] at h
  | .arr _, .bool _, h => by simp [Json.beq] at h
  | .arr _, .num _, h => by simp [Json.beq] at h
  | .arr _, .str _, h => by simp [Json.beq] at h
  | .arr _, .obj _, h => by simp [Json.beq] at h
  | .obj _, .null, h => by simp [Json.beq] at h
  | .obj _, .bool _, h => by simp [Json.beq] at h
  | .obj _, .num _, h => by simp [Json.beq] at h
  | .obj _, .str _, h => by simp [Json.beq] at h
  | .obj _, .arr _, h => by simp [Json.beq] at h
  | .null, b, h => by cases b <;> simp_all [Json.beq]
  | .bool _, b, h => by cases b <;> simp_all [Json.beq]
  | .num _, b, h => by cases b <;> simp_all [Json.beq]
  | .str _, b, h => by cases b <;> simp_all [Json.beq]

theorem Json.eqArr_of_beqArr : ∀ (xs ys : List Json), Json.beqArr xs ys = true → xs = ys
  | [], [], _ => rfl
  | x :: xs, y :: ys, h => by
      have h' : Json.beq x y = true ∧ Json.beqArr xs ys = true := by
        simpa [Json.beqArr, Bool.and_eq_true] using h
      have h1 := Json.eq_of_beq x y h'.1
      have h2 := Json.eqArr_of_beqArr xs ys h'.2
      rw [h1, h2]
  | [], _ :: _, h => by simp [Json.beqArr] at h
  | _ :: _, [], h => by simp [Json.beqArr] at h

theorem Json.eqObj_of_beqObj :
    ∀ (xs ys : List (String × Json)), Json.beqObj xs ys = true → xs = ys
  | [], [], _ => rfl
  | (k, x) :: xs, (k', y) :: ys, h => by
      have h' : (k == k') = true ∧ Json.beq x y = true ∧ Json.beqObj xs ys = true := by
        simpa [Json.beqObj, Bool.and_eq_true] using h
      have h0 : k = k' := by simpa using h'.1
      have h1 := Json.eq_of_beq x y h'.2.1
      have h2 := Json.eqObj_of_beqObj xs ys h'.2.2
      rw [h0, h1, h2]
  | [], _ :: _, h => by simp [Json.beqObj] at h
  | _ :: _, [], h => by simp [Json.beqObj] at h

end

mutual

theorem Json.beq_self : ∀ (a : Json), Json.beq a a = true
  | .null => rfl
  | .bool b => by simp [Json.beq]
  | .num n => by simp [Json.beq]
  | .str s => by simp [Json.beq]
  | .arr xs => by simpa [Json.beq] using Json.beqArr_self xs
  | .obj xs => by simpa [Json.beq] using Json.beqObj_self xs

theorem Json.beqArr_self : ∀ (xs : List Json), Json.beqArr xs xs = true
  | [] => rfl
  | x :: xs => by
      simp only [Json.beqArr, Bool.and_eq_true]
      exact ⟨Json.beq_self x, Json.beqArr_self xs⟩

theorem Json.beqObj_self : ∀ (xs : List (String × Json)), Json.beqObj xs xs = true
  | [] => rfl
  | (k, x) :: xs => by
      simp only [Json.beqObj, Bool.and_eq_true]
      exact ⟨by simp, Json.beq_self x, Json.beqObj_self xs⟩

end

instance : DecidableEq Json := fun a b =>
  if h : Json.beq a b = true then isTrue (Json.eq_of_beq a b h)
  else isFalse (fun e => h (e ▸ Json.beq_self a))

namespace Json

/-- Python truthiness (`if not x`) of a JSON value held in a Python variable:
`None`, `False`, `0`, `""`, `[]`, `{}` are falsy. -/
def truthy : Json → Bool
  | .null => false
  | .bool b => b
  | .num n => n != 0
  | .str s => !s.isEmpty
  | .arr l => !l.isEmpty
  | .obj l => !l.isEmpty

/-- Whether the value is hashable in Python (usable as a `dict` key):
lists and dicts are not. -/
def hashable : Json → Bool
  | .arr _ => false
  | .obj _ => false
  | _ => true

/-- First-match lookup in an object's field list, with a default.
Python dicts have unique keys, so first-match agrees with `dict.get`. -/
def lookupD (fs : List (String × Json)) (k : String) (d : Json) : Json :=
  match fs.find? (fun p => p.1 == k) with
  | some p => p.2
  | none => d

end Json

/-- Python exceptions relevant to this program. -/
inductive PyExc where
  /-- `fastapi.HTTPException(status_code, detail)`. -/
  | http (status : Nat) (detail : String)
  /-- `requests.exceptions.RequestException` (includes `HTTPError`). -/
  | requestErr (msg : String)
  /-- `AttributeError` from calling `.get` on a non-dict. -/
  | attrError
  /-- `TypeError` (unhashable key, or iterating a non-iterable). -/
  | typeError
  /-- `UnicodeEncodeError` from `str.encode`. -/
  | encodeError
deriving DecidableEq

namespace Json

/-- `x.get(k, d)` where `x` holds this JSON value: raises `AttributeError`
unless the value is a dict. -/
def pyGetD : Json → String → Json → Except PyExc Json
  | .obj fs, k, d => .ok (lookupD fs k d)
  | _, _, _ => .error .attrError

/-- `x.get(k)`: default `None`. -/
def pyGet (j : Json) (k : String) : Except PyExc Json :=
  j.pyGetD k .null

/-- Python `for x in v`: lists yield their elements, strings their
characters (as one-character strings), dicts their keys; other values raise
`TypeError`. -/
def pyIter : Json → Except PyExc (List Json)
  | .arr xs => .ok xs
  | .str s => .ok (s.toList.map (fun c => .str (String.singleton c)))
  | .obj fs => .ok (fs.map (fun p => .str p.1))
  | _ => .error .typeError

end Json

theorem json_sanity₁ : (Json.obj [("a", .num 1)]).pyGet "a" = .ok (.num 1) := rfl
theorem json_sanity₂ : (Json.obj []).pyGetD "item" (.obj []) = .ok (.obj []) := rfl

/-- `str(e)` for the exceptions as logged/re-raised by the handlers.
`str` of a FastAPI `HTTPException` is `"{status_code}: {detail}"`. -/
def strOfExc : PyExc → String
  | .http st d => toString st ++ ": " ++ d
  | .requestErr m => m
  | .attrError => "AttributeError"
  | .typeError => "TypeError"
  | .encodeError => "UnicodeEncodeError"

/-- The upstream (Spotify) HTTP response as observed by the handler:
status code, parsed JSON body (`response.json()`), and raw text
(`response.text`). -/
structure UpstreamResp where
  status : Nat
  body : Json
  text : String
deriving DecidableEq

/-- `requests.Response.ok`: true iff `raise_for_status()` would not raise,
i.e. the status code is not a 4xx or 5xx. -/
def respOk (r : UpstreamResp) : Bool :=
  decide ¬(400 ≤ r.status ∧ r.status < 600)

/-- `response.raise_for_status()`: raises `requests.exceptions.HTTPError`
(a `RequestException`) on 4xx/5xx status codes. -/
def raiseForStatus (r : UpstreamResp) : Except PyExc Unit :=
  if 400 ≤ r.status ∧ r.status < 600 then .error (.requestErr "HTTPError") else .ok ()

/-- The final HTTP response produced by a handler: status code and JSON
content (for `HTTPException`s, FastAPI renders `{"detail": detail}`). -/
structure HttpResponse where
  status : Nat
  content : Json
deriving DecidableEq

/-!
### Base64 and the Basic-auth header (refresh_token lines 40-47; callback line 211 via requests)

Python `str` values are modelled as lists of code points; `str.encode`
succeeds only when every code point is in range for the codec.
-/

/-- The RFC 4648 base64 alphabet. -/
def b64Alphabet : List Char :=
  "ABCDEFGHIJKLMNOPQRSTUVWXYZabcdefghijklmnopqrstuvwxyz0123456789+/".toList

/-- Character for a 6-bit group. -/
def b64Char (n : Nat) : Char := b64Alphabet.getD n '='

/-- `base64.b64encode` on a byte list, producing the base64 characters
(with `=` padding). -/
def b64Encode : List Nat → List Char
  | a :: b :: c :: rest =>
      b64Char (a / 4) :: b64Char (a % 4 * 16 + b / 16) ::
      b64Char (b % 16 * 4 + c / 64) :: b64Char (c % 64) :: b64Encode rest
  | [a, b] =>
      [b64Char (a / 4), b64Char (a % 4 * 16 + b / 16), b64Char (b % 16 * 4), '=']
  | [a] =>
      [b64Char (a / 4), b64Char (a % 4 * 16), '=', '=']
  | [] => []

/-- `s.encode("ascii")`: succeeds iff every code point is < 128. -/
def pyAsciiEncode : List Nat → Option (List Nat) := fun s =>
  if s.all (· < 128) then some s else none

/-- `s.encode("latin1")`: succeeds iff every code point is < 256. -/
def pyLatin1Encode : List Nat → Option (List Nat) := fun s =>
  if s.all (· < 256) then some s else none

/-- The Basic-auth header value built inside `refresh_token`
(src/main.py lines 40-45): `base64.b64encode(f"{id}:{secret}".encode("ascii"))`
decoded back to ASCII, prefixed with `"Basic "`.  `none` when the ASCII
encode raises. -/
def refresh_auth_header (clientId clientSecret : List Nat) : Option String :=
  (pyAsciiEncode (clientId ++ [58] ++ clientSecret)).map
    (fun bs => "Basic " ++ String.mk (b64Encode bs))

/-- The Basic-auth header value produced by `requests` for
`auth=(SPOTIFY_CLIENT_ID, SPOTIFY_CLIENT_SECRET)` in `callback`
(src/main.py line 211): requests' `_basic_auth_str` encodes each part with
latin-1 and base64-encodes `username:password`. -/
def callback_auth_header (clientId clientSecret : List Nat) : Option String :=
  match pyLatin1Encode clientId, pyLatin1Encode clientSecret with
  | some u, some p => some ("Basic " ++ String.mk (b64Encode (u ++ [58] ++ p)))
  | _, _ => none

/-!
### The login endpoint (src/main.py lines 332-342)
-/

/-- The scope list hard-coded in the `login` f-string. -/
def loginScopes : List String :=
  ["user-read-recently-played", "user-read-private", "user-read-email",
   "user-top-read", "user-read-currently-playing"]

/-- The authorize URL built by `login` (src/main.py lines 335-341): plain
f-string concatenation; the scope parameter is written literally, spaces
included. -/
def login_auth_url (clientId redirectUri : String) : String :=
  "https://accounts.spotify.com/authorize"
    ++ "?response_type=code"
    ++ "&client_id=" ++ clientId
    ++ "&redirect_uri=" ++ redirectUri
    ++ "&scope=user-read-recently-played user-read-private user-read-email user-top-read user-read-currently-playing"

/-- A string is usable as a URL-escaped query parameter value only if it
contains no literal space (a space must be escaped as `%20` or `+`). -/
def isEscapedQueryValue (s : String) : Bool :=
  !(s.toList.contains ' ')

/-- Modelled from the spec: `buildAuthorizeUrl` as the spec describes it —
scopes joined by a single space and **then URL-escaped** (space → `%20`) as
a single query parameter value.  The escaping step is what the spec claims
and the source lacks. -/
def spec_login_auth_url (clientId redirectUri : String) : String :=
  "https://accounts.spotify.com/authorize"
    ++ "?response_type=code"
    ++ "&client_id=" ++ clientId
    ++ "&redirect_uri=" ++ redirectUri
    ++ "&scope="
    ++ String.intercalate "%20" loginScopes

/-!
### The refresh-token endpoint (src/main.py lines 30-80)

The whole handler body sits in a `try` whose `except Exception as e` clause
re-raises every exception — the deliberately raised `HTTPException`s
included, since `HTTPException` subclasses `Exception` — as
`HTTPException(status_code=500, detail=str(e))`.
-/

/-- The `try` block of `refresh_token` (src/main.py lines 33-76), given the
parsed request body and the upstream token response. -/
def refresh_token_inner (clientId clientSecret : List Nat) (body : Json)
    (up : UpstreamResp) : Except PyExc HttpResponse :=
  match body.pyGet "refresh_token" with
  | .error e => .error e
  | .ok rt =>
    if rt.truthy = false then
      .error (.http 400 "Refresh token is required")
    else
      match pyAsciiEncode (clientId ++ [58] ++ clientSecret) with
      | none => .error .encodeError
      | some _ =>
        if respOk up = false then
          .error (.http up.status ("Failed to refresh token: " ++ up.text))
        else
          .ok ⟨200, up.body⟩

/-- The `refresh_token` handler: any exception escaping the `try` block —
including the `HTTPException(400)` and the forwarded-status
`HTTPException` — is caught by `except Exception` and replaced by
`HTTPException(500, str(e))`. -/
def refresh_token_handler (clientId clientSecret : List Nat) (body : Json)
    (up : UpstreamResp) : HttpResponse :=
  match refresh_token_inner clientId clientSecret body up with
  | .ok r => r
  | .error e => ⟨500, .obj [("detail", .str (strOfExc e))]⟩

/-!
### The recently-played endpoint (src/main.py lines 82-99)

Here the `except` clause catches only `requests.exceptions.RequestException`,
so the `HTTPException(401, "Token expired")` raised on an upstream 401
escapes to FastAPI unchanged.
-/

/-- The `try` block of `get_recently_played` (src/main.py lines 84-95). -/
def recently_played_inner (up : UpstreamResp) : Except PyExc HttpResponse :=
  if up.status = 401 then
    .error (.http 401 "Token expired")
  else
    match raiseForStatus up with
    | .error e => .error e
    | .ok _ => .ok ⟨200, up.body⟩

/-- Resolution of an exception escaping a handler whose `except` clause
catches only `RequestException`: a caught `RequestException` becomes
`HTTPException(500, str(e))`; an uncaught `HTTPException` is rendered by
FastAPI with its own status; any other uncaught exception becomes FastAPI's
generic 500. -/
def resolveRequestExcOnly : PyExc → HttpResponse
  | .requestErr m => ⟨500, .obj [("detail", .str m)]⟩
  | .http st d => ⟨st, .obj [("detail", .str d)]⟩
  | _ => ⟨500, .obj [("detail", .str "Internal Server Error")]⟩

/-- The `get_recently_played` handler. -/
def recently_played_handler (up : UpstreamResp) : HttpResponse :=
  match recently_played_inner up with
  | .ok r => r
  | .error e => resolveRequestExcOnly e

/-!
### The currently-playing endpoint (src/main.py lines 101-156)
-/

/-- The artist-name list comprehension
`[artist.get("name") for artist in item.get("artists", [])]`. -/
def artistNameList (item : Json) : Except PyExc (List Json) :=
  match item.pyGetD "artists" (.arr []) with
  | .error e => .error e
  | .ok artistsJ =>
    match artistsJ.pyIter with
    | .error e => .error e
    | .ok artistsL => artistsL.mapM (fun a => a.pyGet "name")

/-- The `track_data` construction (src/main.py lines 129-142): every nested
access goes through `.get` with an object/array default at each level. -/
def extract_track_data (data : Json) : Except PyExc Json :=
  match data.pyGetD "is_playing" (.bool false) with
  | .error e => .error e
  | .ok isPlaying =>
  match data.pyGetD "item" (.obj []) with
  | .error e => .error e
  | .ok item =>
  match item.pyGet "name" with
  | .error e => .error e
  | .ok nm =>
  match artistNameList item with
  | .error e => .error e
  | .ok artistNames =>
  match item.pyGetD "album" (.obj []) with
  | .error e => .error e
  | .ok albumJ =>
  match albumJ.pyGet "name" with
  | .error e => .error e
  | .ok albName =>
  match albumJ.pyGetD "images" (.arr []) with
  | .error e => .error e
  | .ok albImages =>
  match item.pyGet "duration_ms" with
  | .error e => .error e
  | .ok dur =>
  match data.pyGet "progress_ms" with
  | .error e => .error e
  | .ok prog =>
  match item.pyGetD "external_urls" (.obj []) with
  | .error e => .error e
  | .ok extUrls =>
  match extUrls.pyGet "spotify" with
  | .error e => .error e
  | .ok ext =>
    .ok (.obj [("is_playing", isPlaying),
               ("track", .obj [("name", nm),
                               ("artists", .arr artistNames),
                               ("album", .obj [("name", albName), ("images", albImages)]),
                               ("duration_ms", dur),
                               ("progress_ms", prog),
                               ("external_url", ext)])])

/-- The `try` block of `get_currently_playing` (src/main.py lines 103-152):
204 yields the sentinel, 401 raises `HTTPException`, other 4xx/5xx raise via
`raise_for_status`, and a 2xx body is reshaped by `extract_track_data`. -/
def currently_playing_inner (up : UpstreamResp) : Except PyExc HttpResponse :=
  if up.status = 204 then
    .ok ⟨200, .obj [("is_playing", .bool false), ("track", .null)]⟩
  else if up.status = 401 then
    .error (.http 401 "Token expired")
  else
    match raiseForStatus up with
    | .error e => .error e
    | .ok _ =>
      match extract_track_data up.body with
      | .error e => .error e
      | .ok td => .ok ⟨200, td⟩

/-- The `get_currently_playing` handler: its `except` clause also catches
only `RequestException`. -/
def currently_playing_handler (up : UpstreamResp) : HttpResponse :=
  match currently_playing_inner up with
  | .ok r => r
  | .error e => resolveRequestExcOnly e

/-!
### Token extraction in the callback handler (src/main.py lines 217-224)
-/

/-- The token-field extraction of `callback`: reads `access_token` and
`refresh_token` (default `None`), reads `expires_in` with default `3600`,
and raises `HTTPException(400)` when either token is falsy.  The three
values returned are included verbatim in the handler's response payload as
`access_token`, `refresh_token` and `expires_in`. -/
def callback_token_fields (token_data : Json) : Except PyExc (Json × Json × Json) :=
  match token_data.pyGet "access_token" with
  | .error e => .error e
  | .ok accessTok =>
  match token_data.pyGet "refresh_token" with
  | .error e => .error e
  | .ok refreshTok =>
  match token_data.pyGetD "expires_in" (.num 3600) with
  | .error e => .error e
  | .ok expiresIn =>
    if accessTok.truthy = false || refreshTok.truthy = false then
      .error (.http 400 "Failed to retrieve tokens")
    else
      .ok (accessTok, refreshTok, expiresIn)

/-!
### Stable descending sort

`list.sort(key=..., reverse=True)` / `sorted(..., key=..., reverse=True)`
is Python's stable sort, descending on the key.  It is embedded as an
insertion sort, proved below to be a permutation (`sortDesc_perm`), sorted
non-increasingly on the key (`sortDesc_pairwise`), and stable
(`sortDesc_filter_key`: elements of equal key keep their input order) —
the three properties that determine the stable descending sort uniquely.
-/

/-- Insert `x` before the first element whose key is ≤ `key x` (so `x`
stays after earlier-inserted elements of equal key). -/
def insertDesc (key : α → Nat) (x : α) : List α → List α
  | [] => [x]
  | y :: ys => if key x < key y then y :: insertDesc key x ys else x :: y :: ys

/-- Stable sort, descending by `key`. -/
def sortDesc (key : α → Nat) (l : List α) : List α :=
  l.foldr (insertDesc key) []

theorem insertDesc_perm (key : α → Nat) (x : α) :
    ∀ l : List α, List.Perm (insertDesc key x l) (x :: l)
  | [] => List.Perm.refl _
  | y :: ys => by
      simp only [insertDesc]
      split
      · exact ((insertDesc_perm key x ys).cons y).trans (List.Perm.swap x y ys)
      · exact List.Perm.refl _

theorem sortDesc_perm (key : α → Nat) : ∀ l : List α, List.Perm (sortDesc key l) l
  | [] => List.Perm.refl _
  | x :: xs => by
      simpa [sortDesc] using
        (insertDesc_perm key x (sortDesc key xs)).trans ((sortDesc_perm key xs).cons x)

theorem mem_insertDesc {key : α → Nat} {x a : α} {l : List α} :
    a ∈ insertDesc key x l ↔ a = x ∨ a ∈ l := by
  rw [(insertDesc_perm key x l).mem_iff]
  simp

theorem pairwise_insertDesc {key : α → Nat} {x : α} :
    ∀ {l : List α}, l.Pairwise (fun a b => key b ≤ key a) →
      (insertDesc key x l).Pairwise (fun a b => key b ≤ key a)
  | [], _ => by simp [insertDesc]
  | y :: ys, h => by
      simp only [insertDesc]
      rw [List.pairwise_cons] at h
      split
      · rename_i hlt
        rw [List.pairwise_cons]
        refine ⟨?_, pairwise_insertDesc h.2⟩
        intro a ha
        rcases mem_insertDesc.mp ha with rfl | ha
        · exact Nat.le_of_lt hlt
        · exact h.1 a ha
      · rename_i hge
        rw [List.pairwise_cons]
        refine ⟨?_, List.pairwise_cons.mpr h⟩
        intro a ha
        rcases List.mem_cons.mp ha with rfl | ha
        · exact Nat.le_of_not_lt hge
        · exact Nat.le_trans (h.1 a ha) (Nat.le_of_not_lt hge)

theorem sortDesc_pairwise (key : α → Nat) :
    ∀ l : List α, (sortDesc key l).Pairwise (fun a b => key b ≤ key a)
  | [] => by simp [sortDesc]
  | x :: xs => by
      simpa [sortDesc] using pairwise_insertDesc (sortDesc_pairwise key xs)

theorem filter_insertDesc (key : α → Nat) (c : Nat) (x : α) :
    ∀ l : List α,
      (insertDesc key x l).filter (fun a => key a == c) =
        if key x == c then x :: l.filter (fun a => key a == c)
        else l.filter (fun a => key a == c)
  | [] => by
      simp only [insertDesc, List.filter]
      split <;> simp_all
  | y :: ys => by
      simp only [insertDesc]
      split
      · rename_i hlt
        rw [List.filter_cons, filter_insertDesc key c x ys, List.filter_cons]
        by_cases hx : key x = c
        · have hy : (key y == c) = false := by
            simp only [beq_eq_false_iff_ne, ne_eq]
            omega
          simp [hx, hy]
        · simp [hx]
      · rw [List.filter_cons]

/-- Stability: for every key value `c`, the elements of key `c` appear in
the sorted output in the same order as in the input. -/
theorem sortDesc_filter_key (key : α → Nat) (c : Nat) :
    ∀ l : List α,
      (sortDesc key l).filter (fun a => key a == c) =
        l.filter (fun a => key a == c)
  | [] => rfl
  | x :: xs => by
      have ih := sortDesc_filter_key key c xs
      simp only [sortDesc, List.foldr] at ih ⊢
      rw [filter_insertDesc, ih, List.filter_cons]

/-!
### The album aggregator `get_top_albums` (src/main.py lines 158-198)

`album_stats` is a Python dict keyed by album id; it is embedded as an
insertion-ordered association list with unique keys (Python 3.7+ dict
semantics).  The final list built from `album_stats.items()` carries the
album id next to its stats record.
-/

/-- The per-track entry appended to an album's `tracks` list
(`{'name': ..., 'popularity': ...}`). -/
structure TrackEntry where
  name : Json
  popularity : Json
deriving DecidableEq

/-- The per-album record stored in `album_stats` (src/main.py lines 174-183). -/
structure AlbumStats where
  name : Json
  artists : List Json
  images : Json
  release_date : Json
  total_tracks : Json
  external_url : Json
  count : Nat
  tracks : List TrackEntry
deriving DecidableEq

/-- The artist-name comprehension in the album record
(`[artist.get('name') for artist in album.get('artists', [])]`). -/
def albumArtistNames (album : Json) : Except PyExc (List Json) :=
  match album.pyGetD "artists" (.arr []) with
  | .error e => .error e
  | .ok artistsJ =>
    match artistsJ.pyIter with
    | .error e => .error e
    | .ok artistsL => artistsL.mapM (fun a => a.pyGet "name")

/-- The fresh album record built when an id is first seen
(src/main.py lines 174-183): `count` starts at 0 and `tracks` empty. -/
def initAlbumStats (album : Json) : Except PyExc AlbumStats :=
  match album.pyGet "name" with
  | .error e => .error e
  | .ok nm =>
  match albumArtistNames album with
  | .error e => .error e
  | .ok artistNames =>
  match album.pyGetD "images" (.arr []) with
  | .error e => .error e
  | .ok images =>
  match album.pyGet "release_date" with
  | .error e => .error e
  | .ok rd =>
  match album.pyGet "total_tracks" with
  | .error e => .error e
  | .ok tt =>
  match album.pyGetD "external_urls" (.obj []) with
  | .error e => .error e
  | .ok extUrls =>
  match extUrls.pyGet "spotify" with
  | .error e => .error e
  | .ok ext =>
    .ok { name := nm, artists := artistNames, images := images,
          release_date := rd, total_tracks := tt, external_url := ext,
          count := 0, tracks := [] }

/-- `album_stats[album_id]['count'] += 1` followed by
`album_stats[album_id]['tracks'].append(...)`: update the (unique) entry
with the given key in place. -/
def updateStats : List (Json × AlbumStats) → Json → TrackEntry → List (Json × AlbumStats)
  | [], _, _ => []
  | (k', s) :: rest, k, te =>
    if k' = k then
      (k', { s with count := s.count + 1, tracks := s.tracks ++ [te] }) :: rest
    else
      (k', s) :: updateStats rest k te

/-- `if album_id not in album_stats: album_stats[album_id] = {...}`
(src/main.py lines 173-183): adds a fresh record at the end (dict insertion
order) when the id is new. -/
def ensureEntry (acc : List (Json × AlbumStats)) (albumId album : Json) :
    Except PyExc (List (Json × AlbumStats)) :=
  if (acc.find? (fun p => p.1 == albumId)).isSome then .ok acc
  else
    match initAlbumStats album with
    | .error e => .error e
    | .ok s => .ok (acc ++ [(albumId, s)])

/-- One iteration of the `for track in tracks_data.get('items', [])` loop
(src/main.py lines 166-189). -/
def procTrack (acc : List (Json × AlbumStats)) (track : Json) :
    Except PyExc (List (Json × AlbumStats)) :=
  match track.pyGetD "album" (.obj []) with
  | .error e => .error e
  | .ok album =>
  match album.pyGet "id" with
  | .error e => .error e
  | .ok albumId =>
    if albumId.truthy = false then
      .ok acc
    else if albumId.hashable = false then
      .error .typeError
    else
      match ensureEntry acc albumId album, track.pyGet "name", track.pyGet "popularity" with
      | .ok acc1, .ok nm, .ok pop => .ok (updateStats acc1 albumId ⟨nm, pop⟩)
      | .error e, _, _ => .error e
      | _, .error e, _ => .error e
      | _, _, .error e => .error e

/-- The whole loop, threading `album_stats` through the track list. -/
def procTracks (acc : List (Json × AlbumStats)) :
    List Json → Except PyExc (List (Json × AlbumStats))
  | [] => .ok acc
  | t :: ts =>
    match procTrack acc t with
    | .error e => .error e
    | .ok acc' => procTracks acc' ts

/-- `top_albums.sort(key=lambda x: x['count'], reverse=True)` followed by
`top_albums[:10]`. -/
def top10ByCount (stats : List (Json × AlbumStats)) : List (Json × AlbumStats) :=
  (sortDesc (fun p => p.2.count) stats).take 10

/-- `get_top_albums` applied to an already-extracted track list (the value
of `tracks_data.get('items', [])`). -/
def get_top_albums_items (items : List Json) : Except PyExc (List (Json × AlbumStats)) :=
  match procTracks [] items with
  | .error e => .error e
  | .ok stats => .ok (top10ByCount stats)

/-- `get_top_albums(tracks_data)` (src/main.py lines 158-198). -/
def get_top_albums (tracks_data : Json) : Except PyExc (List (Json × AlbumStats)) :=
  match tracks_data.pyGetD "items" (.arr []) with
  | .error e => .error e
  | .ok itemsJ =>
    match itemsJ.pyIter with
    | .error e => .error e
    | .ok items => get_top_albums_items items

/-- The album id a track contributes to: `track.get('album', {}).get('id')`
when that succeeds and is truthy.  Tracks with an absent or falsy album id
contribute to no aggregate. -/
def trackAlbumId? (track : Json) : Option Json :=
  match track.pyGetD "album" (.obj []) with
  | .error _ => none
  | .ok album =>
    match album.pyGet "id" with
    | .error _ => none
    | .ok i => if i.truthy then some i else none

/-- The keys (album ids) of the stats list. -/
def statKeys (l : List (Json × AlbumStats)) : List Json := l.map Prod.fst

/-- The count stored for key `k` (0 when absent). -/
def statCount (l : List (Json × AlbumStats)) (k : Json) : Nat :=
  match l.find? (fun p => p.1 == k) with
  | some p => p.2.count
  | none => 0

/-- Sum of all stored counts. -/
def sumCounts (l : List (Json × AlbumStats)) : Nat :=
  (l.map (fun p => p.2.count)).sum

theorem statKeys_updateStats (l : List (Json × AlbumStats)) (k : Json) (te : TrackEntry) :
    statKeys (updateStats l k te) = statKeys l := by
  induction l with
  | nil => rfl
  | cons p rest ih =>
    obtain ⟨k0, s⟩ := p
    simp only [updateStats]
    split
    · simp [statKeys]
    · simpa [statKeys] using ih

theorem statCount_cons_self {k0 : Json} {s : AlbumStats} {rest : List (Json × AlbumStats)} :
    statCount ((k0, s) :: rest) k0 = s.count := by
  rw [statCount, List.find?_cons_of_pos _ (by simp)]

theorem statCount_cons_ne {k0 : Json} {s : AlbumStats} {rest : List (Json × AlbumStats)}
    {k' : Json} (h : k0 ≠ k') :
    statCount ((k0, s) :: rest) k' = statCount rest k' := by
  rw [statCount, List.find?_cons_of_neg _ (by simp [h]), statCount]

theorem statCount_updateStats (l : List (Json × AlbumStats)) (k k' : Json) (te : TrackEntry)
    (hp : (l.find? (fun p => p.1 == k)).isSome = true) :
    statCount (updateStats l k te) k' = statCount l k' + (if k' = k then 1 else 0) := by
  induction l with
  | nil => simp [List.find?] at hp
  | cons p rest ih =>
    obtain ⟨k0, s⟩ := p
    by_cases h0 : k0 = k
    · subst h0
      rw [updateStats, if_pos rfl]
      by_cases h1 : k0 = k'
      · subst h1
        rw [statCount_cons_self, statCount_cons_self, if_pos rfl]
      · rw [statCount_cons_ne h1, statCount_cons_ne h1, if_neg (fun e => h1 e.symm)]
        omega
    · have hrest : (rest.find? (fun p => p.1 == k)).isSome = true := by
        rw [List.find?_cons_of_neg _ (by simp [h0])] at hp
        exact hp
      rw [updateStats, if_neg h0]
      by_cases h1 : k0 = k'
      · subst h1
        rw [statCount_cons_self, statCount_cons_self, if_neg h0]
        omega
      · rw [statCount_cons_ne h1, statCount_cons_ne h1]
        exact ih hrest

theorem sumCounts_updateStats (l : List (Json × AlbumStats)) (k : Json) (te : TrackEntry)
    (hp : (l.find? (fun p => p.1 == k)).isSome = true) :
    sumCounts (updateStats l k te) = sumCounts l + 1 := by
  induction l with
  | nil => simp [List.find?] at hp
  | cons p rest ih =>
    obtain ⟨k0, s⟩ := p
    by_cases h0 : k0 = k
    · rw [updateStats, if_pos h0]
      simp only [sumCounts, List.map_cons, List.sum_cons]
      omega
    · have hrest : (rest.find? (fun p => p.1 == k)).isSome = true := by
        rw [List.find?_cons_of_neg _ (by simp [h0])] at hp
        exact hp
      rw [updateStats, if_neg h0]
      simp only [sumCounts, List.map_cons, List.sum_cons] at ih ⊢
      rw [ih hrest]
      omega

theorem statKeys_append (l : List (Json × AlbumStats)) (k : Json) (s : AlbumStats) :
    statKeys (l ++ [(k, s)]) = statKeys l ++ [k] := by
  simp [statKeys]

theorem sumCounts_append (l : List (Json × AlbumStats)) (k : Json) (s : AlbumStats) :
    sumCounts (l ++ [(k, s)]) = sumCounts l + s.count := by
  simp [sumCounts]

theorem statCount_append_new (k k' : Json) (s : AlbumStats) :
    ∀ (l : List (Json × AlbumStats)), l.find? (fun p => p.1 == k) = none →
      statCount (l ++ [(k, s)]) k' = if k' = k then s.count else statCount l k'
  | [], _ => by
      by_cases he : k' = k
      · subst he
        rw [List.nil_append, statCount_cons_self, if_pos rfl]
      · rw [List.nil_append, statCount_cons_ne (fun e => he e.symm), if_neg he]
  | (k0, s0) :: rest, h => by
      have hne : k0 ≠ k := by
        intro e
        rw [List.find?_cons_of_pos _ (by simp [e])] at h
        cases h
      have hrest : rest.find? (fun p => p.1 == k) = none := by
        rw [List.find?_cons_of_neg _ (by simp [hne])] at h
        exact h
      by_cases h1 : k0 = k'
      · subst h1
        rw [List.cons_append, statCount_cons_self, statCount_cons_self, if_neg hne]
      · rw [List.cons_append, statCount_cons_ne h1, statCount_cons_ne h1,
          statCount_append_new k k' s rest hrest]

theorem find?_isSome_append_self (l : List (Json × AlbumStats)) (k : Json) (s : AlbumStats) :
    ((l ++ [(k, s)]).find? (fun p => p.1 == k)).isSome = true := by
  simp only [List.find?_append]
  cases hf : l.find? (fun p => p.1 == k) <;> simp [Option.or, List.find?]

theorem not_mem_statKeys_of_find?_none {l : List (Json × AlbumStats)} {k : Json}
    (h : l.find? (fun p => p.1 == k) = none) : k ∉ statKeys l := by
  rw [List.find?_eq_none] at h
  simp only [statKeys, List.mem_map]
  rintro ⟨p, hp, rfl⟩
  exact h p hp (by simp)

theorem statCount_eq_zero_of_find?_none {l : List (Json × AlbumStats)} {k : Json}
    (h : l.find? (fun p => p.1 == k) = none) : statCount l k = 0 := by
  simp [statCount, h]

theorem statCount_of_mem {l : List (Json × AlbumStats)} {p : Json × AlbumStats}
    (hnd : (statKeys l).Nodup) (hp : p ∈ l) : statCount l p.1 = p.2.count := by
  induction l with
  | nil => cases hp
  | cons q rest ih =>
    rcases List.mem_cons.mp hp with rfl | hp'
    · simp [statCount, List.find?_cons_of_pos]
    · have hq : q.1 ≠ p.1 := by
        intro e
        have : p.1 ∈ statKeys rest := by
          simp only [statKeys, List.mem_map]
          exact ⟨p, hp', rfl⟩
        rw [statKeys, List.map_cons, List.nodup_cons] at hnd
        exact hnd.1 (e ▸ this)
      rw [statCount, List.find?_cons_of_neg _ (by simpa using hq)]
      exact ih (by
        rw [statKeys, List.map_cons, List.nodup_cons] at hnd
        exact hnd.2) hp'


theorem initAlbumStats_fresh {album : Json} {s : AlbumStats}
    (h : initAlbumStats album = .ok s) : s.count = 0 := by
  unfold initAlbumStats at h
  repeat' split at h
  all_goals cases h
  rfl

theorem ensureEntry_spec {acc acc1 : List (Json × AlbumStats)} {albumId album : Json}
    (h : ensureEntry acc albumId album = .ok acc1) :
    (∀ k', statCount acc1 k' = statCount acc k') ∧
    (acc1.find? (fun p => p.1 == albumId)).isSome = true ∧
    sumCounts acc1 = sumCounts acc ∧
    ((statKeys acc).Nodup → (statKeys acc1).Nodup) ∧
    (∀ k, k ∈ statKeys acc1 → k ∈ statKeys acc ∨ k = albumId) := by
  unfold ensureEntry at h
  by_cases hF : (acc.find? (fun p => p.1 == albumId)).isSome
  · rw [if_pos hF] at h
    cases h
    exact ⟨fun _ => rfl, hF, rfl, id, fun k hk => Or.inl hk⟩
  · rw [if_neg hF] at h
    cases hInit : initAlbumStats album with
    | error e => rw [hInit] at h; cases h
    | ok s =>
      rw [hInit] at h
      cases h
      have hFn : acc.find? (fun p => p.1 == albumId) = none :=
        Option.not_isSome_iff_eq_none.mp hF
      have hc0 : s.count = 0 := initAlbumStats_fresh hInit
      refine ⟨?_, ?_, ?_, ?_, ?_⟩
      · intro k'
        rw [statCount_append_new albumId k' s acc hFn]
        by_cases he : k' = albumId
        · subst he
          rw [if_pos rfl, hc0, statCount_eq_zero_of_find?_none hFn]
        · rw [if_neg he]
      · exact find?_isSome_append_self acc albumId s
      · rw [sumCounts_append, hc0]
        omega
      · intro hnd
        rw [statKeys_append]
        have := not_mem_statKeys_of_find?_none hFn
        simp [List.nodup_append, hnd, this]
      · intro k hk
        rw [statKeys_append] at hk
        rcases List.mem_append.mp hk with hk | hk
        · exact Or.inl hk
        · exact Or.inr (by simpa using hk)

theorem procTrack_spec {acc acc' : List (Json × AlbumStats)} {t : Json}
    (h : procTrack acc t = .ok acc') :
    (∀ k, statCount acc' k = statCount acc k + (if trackAlbumId? t = some k then 1 else 0)) ∧
    ((statKeys acc).Nodup → (statKeys acc').Nodup) ∧
    (∀ k, k ∈ statKeys acc' → k ∈ statKeys acc ∨ trackAlbumId? t = some k) ∧
    sumCounts acc' = sumCounts acc + (if (trackAlbumId? t).isSome then 1 else 0) := by
  unfold procTrack at h
  cases hA : t.pyGetD "album" (.obj []) with
  | error e => rw [hA] at h; cases h
  | ok album =>
  simp only [hA] at h
  cases hI : album.pyGet "id" with
  | error e => simp only [hI] at h; cases h
  | ok albumId =>
  simp only [hI] at h
  have hTid : trackAlbumId? t = if albumId.truthy = true then some albumId else none := by
    simp only [trackAlbumId?, hA, hI]
  by_cases hT : albumId.truthy = false
  · rw [if_pos hT] at h
    cases h
    have hTid0 : trackAlbumId? t = none := by simp [hTid, hT]
    rw [hTid0]
    refine ⟨fun k => by simp, id, fun k hk => Or.inl hk, by simp⟩
  · rw [if_neg hT] at h
    have hT' : albumId.truthy = true := by
      cases hv : albumId.truthy
      · exact absurd hv hT
      · rfl
    have hTid1 : trackAlbumId? t = some albumId := by simp [hTid, hT']
    rw [hTid1]
    by_cases hH : albumId.hashable = false
    · rw [if_pos hH] at h
      cases h
    · rw [if_neg hH] at h
      cases hE : ensureEntry acc albumId album with
      | error e => simp only [hE] at h; cases h
      | ok acc1 =>
      simp only [hE] at h
      cases hN : t.pyGet "name" with
      | error e => simp only [hN] at h; cases h
      | ok nm =>
      simp only [hN] at h
      cases hP : t.pyGet "popularity" with
      | error e => simp only [hP] at h; cases h
      | ok pop =>
      simp only [hP] at h
      cases h
      obtain ⟨e_count, e_find, e_sum, e_nodup, e_mem⟩ := ensureEntry_spec hE
      refine ⟨?_, ?_, ?_, ?_⟩
      · intro k
        rw [statCount_updateStats acc1 albumId k _ e_find, e_count k]
        by_cases he : k = albumId
        · subst he
          simp
        · have hns : ¬(some albumId = some k) := by
            intro hsome
            exact he (Option.some.inj hsome).symm
          rw [if_neg he, if_neg hns]
      · intro hnd
        rw [statKeys_updateStats]
        exact e_nodup hnd
      · intro k hk
        rw [statKeys_updateStats] at hk
        rcases e_mem k hk with hk' | hk'
        · exact Or.inl hk'
        · exact Or.inr (by rw [hk'])
      · rw [sumCounts_updateStats acc1 albumId _ e_find, e_sum]
        simp

theorem procTracks_spec :
    ∀ {items : List Json} {acc res : List (Json × AlbumStats)},
      procTracks acc items = .ok res →
      (∀ k, statCount res k =
        statCount acc k + items.countP (fun t => trackAlbumId? t == some k)) ∧
      ((statKeys acc).Nodup → (statKeys res).Nodup) ∧
      (∀ k, k ∈ statKeys res → k ∈ statKeys acc ∨ k ∈ items.filterMap trackAlbumId?) ∧
      sumCounts res ≤ sumCounts acc + items.length := by
  intro items
  induction items with
  | nil =>
    intro acc res h
    cases h
    exact ⟨fun k => by simp, id, fun k hk => Or.inl hk, by simp⟩
  | cons t ts ih =>
    intro acc res h
    unfold procTracks at h
    cases hs : procTrack acc t with
    | error e => rw [hs] at h; cases h
    | ok acc1 =>
    rw [hs] at h
    obtain ⟨c1, n1, m1, s1⟩ := procTrack_spec hs
    obtain ⟨c2, n2, m2, s2⟩ := ih h
    refine ⟨?_, fun hnd => n2 (n1 hnd), ?_, ?_⟩
    · intro k
      rw [c2 k, c1 k, List.countP_cons]
      have : (trackAlbumId? t == some k) = decide (trackAlbumId? t = some k) := by
        cases hd : trackAlbumId? t <;> simp [hd] <;> rfl
      rw [this]
      by_cases he : trackAlbumId? t = some k
      · simp [he]
        omega
      · simp [he]
    · intro k hk
      rcases m2 k hk with hk' | hk'
      · rcases m1 k hk' with hk'' | hk''
        · exact Or.inl hk''
        · refine Or.inr ?_
          rw [List.filterMap_cons, hk'']
          exact List.mem_cons_self _ _
      · refine Or.inr ?_
        rw [List.filterMap_cons]
        cases trackAlbumId? t
        · exact hk'
        · exact List.mem_cons_of_mem _ hk'
    · have hle : sumCounts acc1 ≤ sumCounts acc + 1 := by
        rw [s1]
        by_cases hi : (trackAlbumId? t).isSome = true <;> simp [hi]
      calc sumCounts res ≤ sumCounts acc1 + ts.length := s2
        _ ≤ sumCounts acc + 1 + ts.length := by omega
        _ = sumCounts acc + (t :: ts).length := by simp; omega

/-!
### The genre aggregator `get_top_genres` (src/main.py lines 281-292)

`genre_count` is a Python dict keyed by genre; embedded as an
insertion-ordered association list with unique keys.  The final
`dict(sorted_genres[:10])` preserves the sorted order, so it is embedded as
the truncated sorted list itself.
-/

/-- `genre_count[genre] = genre_count.get(genre, 0) + 1`: assignment to an
existing key keeps its position, a new key is appended (dict insertion
order). -/
def bump : List (Json × Nat) → Json → List (Json × Nat)
  | [], g => [(g, 1)]
  | (k, c) :: rest, g =>
    if k = g then (k, c + 1) :: rest else (k, c) :: bump rest g

/-- One step of the inner `for genre in artist.get('genres', [])` loop:
an unhashable genre value raises `TypeError` when used as a dict key. -/
def procGenre (acc : List (Json × Nat)) (g : Json) : Except PyExc (List (Json × Nat)) :=
  if g.hashable = false then .error .typeError else .ok (bump acc g)

/-- The inner genre loop. -/
def procGenres (acc : List (Json × Nat)) : List Json → Except PyExc (List (Json × Nat))
  | [] => .ok acc
  | g :: gs =>
    match procGenre acc g with
    | .error e => .error e
    | .ok acc' => procGenres acc' gs

/-- One step of the outer `for artist in artists_data.get('items', [])` loop. -/
def procArtist (acc : List (Json × Nat)) (artist : Json) : Except PyExc (List (Json × Nat)) :=
  match artist.pyGetD "genres" (.arr []) with
  | .error e => .error e
  | .ok genresJ =>
    match genresJ.pyIter with
    | .error e => .error e
    | .ok gs => procGenres acc gs

/-- The outer artist loop, threading `genre_count`. -/
def procArtists (acc : List (Json × Nat)) : List Json → Except PyExc (List (Json × Nat))
  | [] => .ok acc
  | a :: rest =>
    match procArtist acc a with
    | .error e => .error e
    | .ok acc' => procArtists acc' rest

/-- The accumulated `genre_count` for an artist-item list. -/
def genreCounts (items : List Json) : Except PyExc (List (Json × Nat)) :=
  procArtists [] items

/-- `dict(sorted(genre_count.items(), key=lambda x: x[1], reverse=True)[:10])`. -/
def top10Genres (gc : List (Json × Nat)) : List (Json × Nat) :=
  (sortDesc (fun p => p.2) gc).take 10

/-- `get_top_genres` applied to an already-extracted artist list. -/
def get_top_genres_items (items : List Json) : Except PyExc (List (Json × Nat)) :=
  match genreCounts items with
  | .error e => .error e
  | .ok gc => .ok (top10Genres gc)

/-- `get_top_genres(artists_data)` (src/main.py lines 281-292). -/
def get_top_genres (artists_data : Json) : Except PyExc (List (Json × Nat)) :=
  match artists_data.pyGetD "items" (.arr []) with
  | .error e => .error e
  | .ok itemsJ =>
    match itemsJ.pyIter with
    | .error e => .error e
    | .ok items => get_top_genres_items items

/-- The genre tags contributed by one artist
(`artist.get('genres', [])`, iterated), when that succeeds. -/
def artistTags (a : Json) : List Json :=
  match a.pyGetD "genres" (.arr []) with
  | .error _ => []
  | .ok genresJ =>
    match genresJ.pyIter with
    | .error _ => []
    | .ok gs => gs

/-- Every genre tag of every artist, in order. -/
def allGenreTags (items : List Json) : List Json :=
  items.flatMap artistTags

/-- The keys (genres) of the genre-count list. -/
def gcKeys (l : List (Json × Nat)) : List Json := l.map Prod.fst

/-- The count stored for genre `k` (0 when absent). -/
def gcCount (l : List (Json × Nat)) (k : Json) : Nat :=
  match l.find? (fun p => p.1 == k) with
  | some p => p.2
  | none => 0

theorem gcCount_cons_self {k0 : Json} {c : Nat} {rest : List (Json × Nat)} :
    gcCount ((k0, c) :: rest) k0 = c := by
  rw [gcCount, List.find?_cons_of_pos _ (by simp)]

theorem gcCount_cons_ne {k0 : Json} {c : Nat} {rest : List (Json × Nat)}
    {k' : Json} (h : k0 ≠ k') :
    gcCount ((k0, c) :: rest) k' = gcCount rest k' := by
  rw [gcCount, List.find?_cons_of_neg _ (by simp [h]), gcCount]

theorem gcCount_bump (g k : Json) :
    ∀ l : List (Json × Nat), gcCount (bump l g) k = gcCount l k + (if k = g then 1 else 0)
  | [] => by
      by_cases he : k = g
      · subst he
        rw [bump, gcCount_cons_self, if_pos rfl]
        rfl
      · rw [bump, gcCount_cons_ne (fun e => he e.symm), if_neg he]
        rfl
  | (k0, c) :: rest => by
      by_cases h0 : k0 = g
      · rw [bump, if_pos h0]
        by_cases h1 : k0 = k
        · subst h1
          rw [gcCount_cons_self, gcCount_cons_self, if_pos h0]
        · rw [gcCount_cons_ne h1, gcCount_cons_ne h1,
            if_neg (fun e => h1 (h0.trans e.symm))]
          omega
      · rw [bump, if_neg h0]
        by_cases h1 : k0 = k
        · subst h1
          rw [gcCount_cons_self, gcCount_cons_self, if_neg h0]
          omega
        · rw [gcCount_cons_ne h1, gcCount_cons_ne h1, gcCount_bump g k rest]

theorem mem_gcKeys_bump {g k : Json} :
    ∀ {l : List (Json × Nat)}, k ∈ gcKeys (bump l g) → k ∈ gcKeys l ∨ k = g
  | [], h => by
      right
      simpa [bump, gcKeys] using h
  | (k0, c) :: rest, h => by
      by_cases h0 : k0 = g
      · rw [bump, if_pos h0] at h
        left
        simpa [gcKeys] using (by simpa [gcKeys] using h)
      · rw [bump, if_neg h0] at h
        rcases (by simpa [gcKeys] using h : k = k0 ∨ k ∈ gcKeys (bump rest g)) with rfl | h'
        · exact Or.inl (by simp [gcKeys])
        · rcases mem_gcKeys_bump h' with h'' | h''
          · exact Or.inl (by simp [gcKeys]; right; simpa [gcKeys] using h'')
          · exact Or.inr h''

theorem gcKeys_bump_nodup {g : Json} :
    ∀ {l : List (Json × Nat)}, (gcKeys l).Nodup → (gcKeys (bump l g)).Nodup
  | [], _ => by simp [bump, gcKeys]
  | (k0, c) :: rest, hnd => by
      rw [gcKeys, List.map_cons, List.nodup_cons] at hnd
      by_cases h0 : k0 = g
      · rw [bump, if_pos h0, gcKeys, List.map_cons, List.nodup_cons]
        exact hnd
      · rw [bump, if_neg h0, gcKeys, List.map_cons, List.nodup_cons]
        refine ⟨?_, gcKeys_bump_nodup hnd.2⟩
        intro hmem
        rcases mem_gcKeys_bump hmem with h' | h'
        · exact hnd.1 h'
        · exact h0 h'

theorem gcCount_of_mem {l : List (Json × Nat)} {p : Json × Nat}
    (hnd : (gcKeys l).Nodup) (hp : p ∈ l) : gcCount l p.1 = p.2 := by
  induction l with
  | nil => cases hp
  | cons q rest ih =>
    rcases List.mem_cons.mp hp with rfl | hp'
    · rw [gcCount, List.find?_cons_of_pos _ (by simp)]
    · have hq : q.1 ≠ p.1 := by
        intro e
        have hmem : p.1 ∈ gcKeys rest := by
          simp only [gcKeys, List.mem_map]
          exact ⟨p, hp', rfl⟩
        rw [gcKeys, List.map_cons, List.nodup_cons] at hnd
        exact hnd.1 (e ▸ hmem)
      rw [gcCount, List.find?_cons_of_neg _ (by simp [hq]), ← gcCount]
      exact ih (by
        rw [gcKeys, List.map_cons, List.nodup_cons] at hnd
        exact hnd.2) hp'

theorem procGenres_spec :
    ∀ {gs : List Json} {acc res : List (Json × Nat)},
      procGenres acc gs = .ok res →
      (∀ k, gcCount res k = gcCount acc k + gs.count k) ∧
      ((gcKeys acc).Nodup → (gcKeys res).Nodup) := by
  intro gs
  induction gs with
  | nil =>
    intro acc res h
    cases h
    exact ⟨fun k => by simp, id⟩
  | cons g gs ih =>
    intro acc res h
    unfold procGenres procGenre at h
    by_cases hH : g.hashable = false
    · rw [if_pos hH] at h
      cases h
    · rw [if_neg hH] at h
      obtain ⟨c2, n2⟩ := ih h
      refine ⟨?_, fun hnd => n2 (gcKeys_bump_nodup hnd)⟩
      intro k
      rw [c2 k, gcCount_bump g k acc, List.count_cons]
      have hbk : (g == k) = decide (k = g) := by
        by_cases he : g = k
        · subst he
          simp
        · have he' : ¬k = g := fun e => he e.symm
          simp [he, he']
      rw [hbk]
      by_cases he : k = g
      · simp [he]
        omega
      · simp [he]

theorem procArtist_spec {a : Json} {acc res : List (Json × Nat)}
    (h : procArtist acc a = .ok res) :
    (∀ k, gcCount res k = gcCount acc k + (artistTags a).count k) ∧
    ((gcKeys acc).Nodup → (gcKeys res).Nodup) := by
  unfold procArtist at h
  cases hG : a.pyGetD "genres" (.arr []) with
  | error e => rw [hG] at h; cases h
  | ok genresJ =>
  simp only [hG] at h
  cases hL : genresJ.pyIter with
  | error e => simp only [hL] at h; cases h
  | ok gs =>
  simp only [hL] at h
  have hTags : artistTags a = gs := by
    simp only [artistTags, hG, hL]
  rw [hTags]
  exact procGenres_spec h

theorem procArtists_spec :
    ∀ {items : List Json} {acc res : List (Json × Nat)},
      procArtists acc items = .ok res →
      (∀ k, gcCount res k = gcCount acc k + (allGenreTags items).count k) ∧
      ((gcKeys acc).Nodup → (gcKeys res).Nodup) := by
  intro items
  induction items with
  | nil =>
    intro acc res h
    cases h
    exact ⟨fun k => by simp [allGenreTags], id⟩
  | cons a rest ih =>
    intro acc res h
    unfold procArtists at h
    cases hs : procArtist acc a with
    | error e => rw [hs] at h; cases h
    | ok acc1 =>
    rw [hs] at h
    obtain ⟨c1, n1⟩ := procArtist_spec hs
    obtain ⟨c2, n2⟩ := ih h
    refine ⟨?_, fun hnd => n2 (n1 hnd)⟩
    intro k
    rw [c2 k, c1 k]
    have : allGenreTags (a :: rest) = artistTags a ++ allGenreTags rest := by
      simp [allGenreTags]
    rw [this, List.count_append]
    omega

theorem genreCounts_spec {items : List Json} {gc : List (Json × Nat)}
    (h : genreCounts items = .ok gc) :
    (∀ k, gcCount gc k = (allGenreTags items).count k) ∧ (gcKeys gc).Nodup := by
  obtain ⟨c, n⟩ := procArtists_spec h
  refine ⟨fun k => ?_, n (by simp [gcKeys])⟩
  rw [c k]
  simp [gcCount, List.find?]

/-!
### Generic consequences used by the claim theorems
-/

theorem sumCounts_append_parts (a b : List (Json × AlbumStats)) :
    sumCounts (a ++ b) = sumCounts a + sumCounts b := by
  simp [sumCounts]

theorem sumCounts_take_le (l : List (Json × AlbumStats)) (n : Nat) :
    sumCounts (l.take n) ≤ sumCounts l := by
  have hsplit : l.take n ++ l.drop n = l := List.take_append_drop n l
  have h2 : sumCounts (l.take n) + sumCounts (l.drop n) = sumCounts l := by
    rw [← sumCounts_append_parts, hsplit]
  omega

theorem sumCounts_perm {l l' : List (Json × AlbumStats)} (h : List.Perm l l') :
    sumCounts l = sumCounts l' := by
  unfold sumCounts
  exact (h.map (fun p => p.2.count)).sum_eq

/-!
### Claim C1 (src/main.py lines 32-80)
-/

/-- C1: the spec claims a request body lacking `refresh_token` (absent, null
or empty) yields status 400.  The code does raise `HTTPException(400,
"Refresh token is required")`, but the handler's blanket `except Exception`
clause catches it and re-raises `HTTPException(500, str(e))`, so the actual
response status is 500 for all three shapes of missing field — the claimed
400 is never returned. -/
theorem C1_missing_refresh_token_gives_500 :
    refresh_token_handler [99] [115] (.obj []) ⟨200, .null, ""⟩ =
      ⟨500, .obj [("detail", .str "400: Refresh token is required")]⟩ ∧
    refresh_token_handler [99] [115] (.obj [("refresh_token", .null)]) ⟨200, .null, ""⟩ =
      ⟨500, .obj [("detail", .str "400: Refresh token is required")]⟩ ∧
    refresh_token_handler [99] [115] (.obj [("refresh_token", .str "")]) ⟨200, .null, ""⟩ =
      ⟨500, .obj [("detail", .str "400: Refresh token is required")]⟩ ∧
    (refresh_token_handler [99] [115] (.obj []) ⟨200, .null, ""⟩).status ≠ 400 :=
  ⟨rfl, rfl, rfl, by decide⟩

/-!
### Claim C2 (src/main.py lines 60-80)
-/

/-- C2: the spec claims a non-2xx upstream status is forwarded.  The code
raises `HTTPException(response.status_code, ...)`, but the blanket
`except Exception` catches that exception and replaces it with
`HTTPException(500, str(e))`: an upstream 503 produces a 500 response, not
503. -/
theorem C2_upstream_status_not_forwarded :
    refresh_token_handler [99] [115] (.obj [("refresh_token", .str "tok")]) ⟨503, .null, "oops"⟩ =
      ⟨500, .obj [("detail", .str "503: Failed to refresh token: oops")]⟩ ∧
    (refresh_token_handler [99] [115] (.obj [("refresh_token", .str "tok")])
      ⟨503, .null, "oops"⟩).status ≠ 503 :=
  ⟨rfl, by decide⟩

/-!
### Claim C3 (src/main.py lines 158-198)
-/

/-- C3: for every input track list accepted by `get_top_albums`, the output
has length at most 10, at most the number of distinct (truthy) album ids
present, total count at most the input length, and is sorted non-increasing
by count. -/
theorem C3_topAlbums_shape (items : List Json) (res : List (Json × AlbumStats))
    (h : get_top_albums_items items = .ok res) :
    res.length ≤ 10 ∧
    res.length ≤ ((items.filterMap trackAlbumId?).dedup).length ∧
    sumCounts res ≤ items.length ∧
    res.Pairwise (fun a b => b.2.count ≤ a.2.count) := by
  unfold get_top_albums_items at h
  cases hs : procTracks [] items with
  | error e => rw [hs] at h; cases h
  | ok stats =>
  rw [hs] at h
  cases h
  obtain ⟨hc, hnd, hmem, hsum⟩ := procTracks_spec hs
  have hnd' : (statKeys stats).Nodup := hnd (by simp [statKeys])
  have hlensort : (sortDesc (fun p => p.2.count) stats).length = stats.length :=
    (sortDesc_perm _ stats).length_eq
  refine ⟨?_, ?_, ?_, ?_⟩
  · rw [top10ByCount]
    rw [List.length_take]
    omega
  · have hkeysub : ∀ k ∈ statKeys stats, k ∈ items.filterMap trackAlbumId? := by
      intro k hk
      rcases hmem k hk with h' | h'
      · simp [statKeys] at h'
      · exact h'
    have hsp : List.Subperm (statKeys stats) ((items.filterMap trackAlbumId?).dedup) :=
      List.Nodup.subperm hnd' (fun a ha => List.mem_dedup.mpr (hkeysub a ha))
    have h2 := hsp.length_le
    have h3 : (statKeys stats).length = stats.length := List.length_map _ _
    rw [top10ByCount, List.length_take]
    omega
  · have h1 : sumCounts (top10ByCount stats) ≤ sumCounts (sortDesc (fun p => p.2.count) stats) :=
      sumCounts_take_le _ 10
    have h2 : sumCounts (sortDesc (fun p => p.2.count) stats) = sumCounts stats :=
      sumCounts_perm (sortDesc_perm _ stats)
    have h3 := hsum
    have h4 : sumCounts ([] : List (Json × AlbumStats)) = 0 := rfl
    omega
  · exact List.Pairwise.sublist (List.take_sublist _ _) (sortDesc_pairwise _ stats)

/-- Witness input for C3: the spec's own example track list. -/
def c3Items : List Json :=
  [.obj [("album", .obj [("id", .str "A1")]), ("name", .str "t1")],
   .obj [("album", .obj [("id", .str "A1")]), ("name", .str "t2")],
   .obj [("album", .obj [("id", .str "A2")]), ("name", .str "t3")]]

/-- Witness output for C3. -/
def c3Res : List (Json × AlbumStats) :=
  [(.str "A1", ⟨.null, [], .arr [], .null, .null, .null, 2,
      [⟨.str "t1", .null⟩, ⟨.str "t2", .null⟩]⟩),
   (.str "A2", ⟨.null, [], .arr [], .null, .null, .null, 1, [⟨.str "t3", .null⟩]⟩)]

theorem C3_witness :
    c3Res.length ≤ 10 ∧
    c3Res.length ≤ ((c3Items.filterMap trackAlbumId?).dedup).length ∧
    sumCounts c3Res ≤ c3Items.length ∧
    c3Res.Pairwise (fun a b => b.2.count ≤ a.2.count) :=
  C3_topAlbums_shape c3Items c3Res (by rfl)

/-!
### Claim C4 (src/main.py lines 166-198)
-/

/-- C4: every returned aggregate's count equals the number of input tracks
whose (truthy) album id equals the aggregate's id, and the track with the
empty album object contributes nothing: `[{album:{}, name:"t1"}]` yields
`[]`. -/
theorem C4_album_counts (items : List Json) (res : List (Json × AlbumStats))
    (h : get_top_albums_items items = .ok res) :
    (∀ p ∈ res, p.2.count = items.countP (fun t => trackAlbumId? t == some p.1)) ∧
    get_top_albums (.obj [("items", .arr [.obj [("album", .obj []), ("name", .str "t1")]])])
      = .ok [] := by
  refine ⟨?_, by rfl⟩
  unfold get_top_albums_items at h
  cases hs : procTracks [] items with
  | error e => rw [hs] at h; cases h
  | ok stats =>
  rw [hs] at h
  cases h
  obtain ⟨hc, hnd, hmem, hsum⟩ := procTracks_spec hs
  have hnd' : (statKeys stats).Nodup := hnd (by simp [statKeys])
  intro p hp
  have hp1 : p ∈ sortDesc (fun q => q.2.count) stats :=
    (List.take_sublist _ _).subset hp
  have hp2 : p ∈ stats := ((sortDesc_perm _ stats).mem_iff).mp hp1
  have h1 : statCount stats p.1 = p.2.count := statCount_of_mem hnd' hp2
  have h2 := hc p.1
  have h3 : statCount ([] : List (Json × AlbumStats)) p.1 = 0 := rfl
  omega

/-- Witness input for C4. -/
def c4Items : List Json :=
  [.obj [("album", .obj [("id", .str "B1")]), ("name", .str "s1"), ("popularity", .num 5)]]

/-- Witness output for C4. -/
def c4Res : List (Json × AlbumStats) :=
  [(.str "B1", ⟨.null, [], .arr [], .null, .null, .null, 1, [⟨.str "s1", .num 5⟩]⟩)]

theorem C4_witness :
    (∀ p ∈ c4Res, p.2.count = c4Items.countP (fun t => trackAlbumId? t == some p.1)) ∧
    get_top_albums (.obj [("items", .arr [.obj [("album", .obj []), ("name", .str "t1")]])])
      = .ok [] :=
  C4_album_counts c4Items c4Res (by rfl)

/-!
### Claim C5 (src/main.py lines 126-142)
-/

/-- C5: on a 200 upstream payload that is an object with no `item` (and no
top-level `progress_ms`), every nested `.get` chain falls through its
defaults and the handler returns 200 with every track sub-field null (the
artists and images lists empty), instead of failing. -/
theorem C5_currently_playing_tolerates_absent (fs : List (String × Json)) (t : String)
    (hItem : fs.find? (fun p => p.1 == "item") = none)
    (hProg : fs.find? (fun p => p.1 == "progress_ms") = none) :
    currently_playing_handler ⟨200, .obj fs, t⟩ =
      ⟨200, .obj [("is_playing", Json.lookupD fs "is_playing" (.bool false)),
                  ("track", .obj [("name", .null),
                                  ("artists", .arr []),
                                  ("album", .obj [("name", .null), ("images", .arr [])]),
                                  ("duration_ms", .null),
                                  ("progress_ms", .null),
                                  ("external_url", .null)])]⟩ := by
  unfold currently_playing_handler currently_playing_inner
  simp [raiseForStatus, extract_track_data, artistNameList, Json.pyGetD, Json.pyGet,
    Json.pyIter, Json.lookupD, hItem, hProg]
  rfl

theorem C5_witness :
    currently_playing_handler ⟨200, .obj [("is_playing", .bool true)], ""⟩ =
      ⟨200, .obj [("is_playing", .bool true),
                  ("track", .obj [("name", .null),
                                  ("artists", .arr []),
                                  ("album", .obj [("name", .null), ("images", .arr [])]),
                                  ("duration_ms", .null),
                                  ("progress_ms", .null),
                                  ("external_url", .null)])]⟩ :=
  C5_currently_playing_tolerates_absent [("is_playing", .bool true)] "" (by rfl) (by rfl)

/-!
### Claim C6 (src/main.py lines 332-342)
-/

/-- C6 counterexample: the URL actually built by `login` is not the
spec-described one in which the space-joined scope list is URL-escaped; the
scope parameter value is embedded with literal spaces. -/
theorem C6_counterexample :
    login_auth_url "cid" "ruri" ≠ spec_login_auth_url "cid" "ruri" ∧
    isEscapedQueryValue (String.intercalate " " loginScopes) = false := by
  constructor
  · decide
  · rfl

/-- C6 amended: the authorize URL is a deterministic string whose scope
query parameter is the scope list joined by single spaces, embedded
literally — the value is *not* URL-escaped (it contains raw spaces). -/
theorem C6_login_url_amended (clientId redirectUri : String) :
    login_auth_url clientId redirectUri =
      "https://accounts.spotify.com/authorize?response_type=code&client_id=" ++ clientId
        ++ "&redirect_uri=" ++ redirectUri
        ++ ("&scope=" ++ String.intercalate " " loginScopes) ∧
    isEscapedQueryValue (String.intercalate " " loginScopes) = false := by
  constructor
  · have hscope :
        ("&scope=user-read-recently-played user-read-private user-read-email user-top-read user-read-currently-playing" : String)
          = "&scope=" ++ String.intercalate " " loginScopes := by decide
    have hpre :
        ("https://accounts.spotify.com/authorize" ++ "?response_type=code" ++ "&client_id=" : String)
          = "https://accounts.spotify.com/authorize?response_type=code&client_id=" := by decide
    rw [login_auth_url, hscope, hpre]
  · rfl

/-!
### Claim C7 (src/main.py lines 281-292)
-/

/-- An artist tagged `["pop"]`. -/
def popArtist : Json := .obj [("genres", .arr [.str "pop"])]

/-- An artist tagged `["rock"]`. -/
def rockArtist : Json := .obj [("genres", .arr [.str "rock"])]

/-- 15 pop artists followed by 3 rock artists, as an upstream payload. -/
def popRockArtists : Json :=
  .obj [("items", .arr (List.replicate 15 popArtist ++ List.replicate 3 rockArtist))]

/-- C7: for any artist list, `get_top_genres` returns the genre-count
mapping (counts = occurrences across every artist's genre tags, keys
unique), sorted by count descending, truncated to 10, stable (elements of
equal count keep the accumulation order, which is first-seen order), and
the spec's 15×pop/3×rock example yields `{"pop": 15, "rock": 3}` in that
order. -/
theorem C7_topGenres (items : List Json) (gc : List (Json × Nat))
    (hgc : genreCounts items = .ok gc) :
    get_top_genres_items items = .ok (top10Genres gc) ∧
    (top10Genres gc).length ≤ 10 ∧
    (top10Genres gc).Pairwise (fun a b => b.2 ≤ a.2) ∧
    (∀ p ∈ top10Genres gc, p.2 = (allGenreTags items).count p.1) ∧
    (gcKeys gc).Nodup ∧
    (∀ c, (sortDesc (fun p : Json × Nat => p.2) gc).filter (fun p => p.2 == c) =
        gc.filter (fun p => p.2 == c)) ∧
    top10Genres gc = (sortDesc (fun p : Json × Nat => p.2) gc).take 10 ∧
    get_top_genres popRockArtists = .ok [(.str "pop", 15), (.str "rock", 3)] := by
  obtain ⟨hcount, hnd⟩ := genreCounts_spec hgc
  refine ⟨?_, ?_, ?_, ?_, hnd, ?_, rfl, by rfl⟩
  · unfold get_top_genres_items
    rw [hgc]
  · rw [top10Genres, List.length_take]
    omega
  · exact List.Pairwise.sublist (List.take_sublist _ _) (sortDesc_pairwise _ gc)
  · intro p hp
    have hp1 : p ∈ sortDesc (fun q : Json × Nat => q.2) gc :=
      (List.take_sublist _ _).subset hp
    have hp2 : p ∈ gc := ((sortDesc_perm _ gc).mem_iff).mp hp1
    have h1 : gcCount gc p.1 = p.2 := gcCount_of_mem hnd hp2
    rw [← h1, hcount p.1]
  · intro c
    exact sortDesc_filter_key _ c gc

/-- Witness input for C7. -/
def c7Items : List Json := [popArtist, rockArtist, popArtist]

theorem C7_witness :
    get_top_genres_items c7Items = .ok (top10Genres [(.str "pop", 2), (.str "rock", 1)]) ∧
    (top10Genres [(.str "pop", 2), (.str "rock", 1)]).length ≤ 10 ∧
    (top10Genres [(.str "pop", 2), (.str "rock", 1)]).Pairwise (fun a b => b.2 ≤ a.2) ∧
    (∀ p ∈ top10Genres [(.str "pop", 2), (.str "rock", 1)],
      p.2 = (allGenreTags c7Items).count p.1) ∧
    (gcKeys [(.str "pop", 2), (.str "rock", 1)]).Nodup ∧
    (∀ c, (sortDesc (fun p : Json × Nat => p.2) [(.str "pop", 2), (.str "rock", 1)]).filter
        (fun p => p.2 == c) =
        ([(.str "pop", 2), (.str "rock", 1)] : List (Json × Nat)).filter (fun p => p.2 == c)) ∧
    top10Genres [(.str "pop", 2), (.str "rock", 1)] =
      (sortDesc (fun p : Json × Nat => p.2) [(.str "pop", 2), (.str "rock", 1)]).take 10 ∧
    get_top_genres popRockArtists = .ok [(.str "pop", 15), (.str "rock", 3)] :=
  C7_topGenres c7Items [(.str "pop", 2), (.str "rock", 1)] (by rfl)

/-!
### Claim C8 (src/main.py lines 91-99 and 122-123)
-/

/-- C8: an upstream 401 is surfaced as a 401 response with detail
`"Token expired"` by both `get_recently_played` and
`get_currently_playing`; the raised `HTTPException` is not a
`RequestException`, so the surrounding `except` clause does not convert it
to 500. -/
theorem C8_upstream_401_token_expired (up : UpstreamResp) (h : up.status = 401) :
    recently_played_handler up = ⟨401, .obj [("detail", .str "Token expired")]⟩ ∧
    currently_playing_handler up = ⟨401, .obj [("detail", .str "Token expired")]⟩ := by
  constructor
  · unfold recently_played_handler recently_played_inner
    rw [if_pos h]
    rfl
  · unfold currently_playing_handler currently_playing_inner
    rw [h]
    rfl

theorem C8_witness :
    recently_played_handler ⟨401, .null, ""⟩ = ⟨401, .obj [("detail", .str "Token expired")]⟩ ∧
    currently_playing_handler ⟨401, .null, ""⟩ = ⟨401, .obj [("detail", .str "Token expired")]⟩ :=
  C8_upstream_401_token_expired ⟨401, .null, ""⟩ rfl

/-!
### Claim C9 (src/main.py lines 40-47 and 211-215)
-/

/-- C9: whenever the refresh handler's explicit ASCII encode succeeds and
produces a Basic-auth header, the header `requests` computes for
`auth=(clientId, clientSecret)` in the callback handler is the identical
string: both are `"Basic "` followed by base64 of `clientId:clientSecret`
over the same bytes (ASCII code points are encoded identically by the
latin-1 codec `requests` uses). -/
theorem C9_basic_auth_headers_agree (clientId clientSecret : List Nat) (hdr : String)
    (h : refresh_auth_header clientId clientSecret = some hdr) :
    callback_auth_header clientId clientSecret = some hdr := by
  unfold refresh_auth_header pyAsciiEncode at h
  by_cases hall : ((clientId ++ [58] ++ clientSecret).all (fun b => b < 128)) = true
  · rw [if_pos hall] at h
    have h' : "Basic " ++ String.mk (b64Encode (clientId ++ [58] ++ clientSecret)) = hdr := by
      simpa using h
    have hmem : ∀ x ∈ clientId ++ [58] ++ clientSecret, x < 128 := by
      intro x hx
      simpa using List.all_eq_true.mp hall x hx
    have hcid : (clientId.all (fun b => b < 256)) = true := by
      rw [List.all_eq_true]
      intro x hx
      have hx' : x < 128 := hmem x (by simp [hx])
      simp
      omega
    have hcs : (clientSecret.all (fun b => b < 256)) = true := by
      rw [List.all_eq_true]
      intro x hx
      have hx' : x < 128 := hmem x (by simp [hx])
      simp
      omega
    unfold callback_auth_header pyLatin1Encode
    rw [if_pos hcid, if_pos hcs, ← h']
  · rw [if_neg hall] at h
    simp at h

/-- Witness for C9: client id `"cid"` and secret `"s"` (ASCII code points);
both computations yield `Basic Y2lkOnM=`. -/
theorem C9_witness :
    callback_auth_header [99, 105, 100] [115] = some "Basic Y2lkOnM=" :=
  C9_basic_auth_headers_agree [99, 105, 100] [115] "Basic Y2lkOnM=" (by rfl)

/-!
### Claim C10 (src/main.py lines 217-224)
-/

/-- C10: when the upstream token payload has truthy `access_token` and
`refresh_token` but no `expires_in` key, the callback's token extraction
succeeds and the `expires_in` it places in the response payload is the
default 3600. -/
theorem C10_expires_in_default (fs : List (String × Json)) (a r : Json)
    (hA : Json.lookupD fs "access_token" .null = a) (ha : a.truthy = true)
    (hR : Json.lookupD fs "refresh_token" .null = r) (hr : r.truthy = true)
    (hE : fs.find? (fun p => p.1 == "expires_in") = none) :
    callback_token_fields (.obj fs) = .ok (a, r, .num 3600) := by
  unfold callback_token_fields
  simp only [Json.pyGet, Json.pyGetD, Json.lookupD, hE]
  unfold Json.lookupD at hA hR
  rw [hA, hR]
  simp [ha, hr]

theorem C10_witness :
    callback_token_fields
        (.obj [("access_token", .str "x"), ("refresh_token", .str "y")]) =
      .ok (.str "x", .str "y", .num 3600) :=
  C10_expires_in_default [("access_token", .str "x"), ("refresh_token", .str "y")]
    (.str "x") (.str "y") (by rfl) (by rfl) (by rfl) (by rfl) (by rfl)
